import Mathlib

/-!
# Verification of the mill height-controller firmware

Shallow embedding of the `mill` firmware (crate root `src/lib.rs` plus
`src/stepper_motor.rs`, `src/screen.rs`, `src/rotary_encoder.rs`).

Machine integers: the firmware stores heights and step counts in `u32`.
They are modelled as `Nat`, with an explicit `% U32` at the one place the
source performs an unchecked `u32` addition (release builds wrap there).
`checked_sub(..).unwrap_or(0)` coincides with truncated `Nat` subtraction.

Fallible GPIO writes and reads are modelled by explicit outcome oracles:
a pin write consumes the next entry of a `List Bool` (an exhausted list
means the write succeeds), and sensor reads are `Except Unit Bool` values.
Each operation additionally returns the trace of pin operations / motor
commands / display frames it issued, so that ordering properties of the
source (enable before first pulse, one jog per calibration tick, which
frame was handed to the display) can be stated.
-/

namespace MillFw

/-- `2 ^ 32`, the modulus of the firmware's `u32` height arithmetic. -/
def U32 : Nat := 2 ^ 32

/-- `rotary_encoder::Rotation`. -/
inductive Rotation
| None
| Clockwise
| CounterClockwise
deriving DecidableEq, Repr

/-- `rotary_encoder::Error`: which encoder phase pin failed to read. -/
inductive EncoderError
| Sia
| Sib
deriving DecidableEq, Repr

/-- `rotary_encoder::RotaryEncoder::update`, as a function of the stored
`current` rotation and the two successfully read phase levels: returns the
new stored rotation and the emitted rotation.  (Pin-read failures are
propagated before this logic runs and are handled at the call site.) -/
def RotaryEncoder.update (current : Rotation) (sia sib : Bool) : Rotation × Rotation :=
if sia = true ∧ current = Rotation.None then
  (if sib then Rotation.CounterClockwise else Rotation.Clockwise, Rotation.None)
else if sia = false then
  (Rotation.None, current)
else
  (current, Rotation.None)

/-- `stepper_motor::Mode`: the microstep resolution. -/
inductive Mode
| FullStep
| HalfStep
| QuarterStep
| EighthStep
| SixteenthStep
deriving DecidableEq, Repr

/-- `stepper_motor::Error`: which motor output pin failed. -/
inductive MotorError
| Step
| Dir
| Enable
| M1
| M2
| M3
deriving DecidableEq, Repr

/-- A physical write to one of the motor driver's output pins, with the
level written.  `enable_write false` drives the (active-low) enable line
low, i.e. enables the driver. -/
inductive PinOp
| step_write (level : Bool)
| dir_write (level : Bool)
| enable_write (level : Bool)
| m1_write (level : Bool)
| m2_write (level : Bool)
| m3_write (level : Bool)
deriving DecidableEq, Repr

/-- `stepper_motor::StepperMotor`: the levels last written to the output
pins together with the `is_enabled` bookkeeping flag. -/
structure StepperMotor where
step_line : Bool
dir_line : Bool
enable_line : Bool
m1 : Bool
m2 : Bool
m3 : Bool
is_enabled : Bool
deriving DecidableEq, Repr

/-- Pop the outcome of the next pin write from the oracle; an exhausted
oracle means the write succeeds. -/
def take_outcome : List Bool → Bool × List Bool
| [] => (true, [])
| b :: rest => (b, rest)

/-- `StepperMotor::enable`: drive the active-low enable line low; the
`is_enabled` flag is set only when the write succeeds. -/
def StepperMotor.enable (m : StepperMotor) (env : List Bool) :
    Except MotorError StepperMotor × List Bool × List PinOp :=
match take_outcome env with
| (true, env') =>
  (Except.ok { m with enable_line := false, is_enabled := true }, env', [PinOp.enable_write false])
| (false, env') => (Except.error MotorError.Enable, env', [])

/-- `StepperMotor::disable`: drive the active-low enable line high; the
`is_enabled` flag is cleared only when the write succeeds. -/
def StepperMotor.disable (m : StepperMotor) (env : List Bool) :
    Except MotorError StepperMotor × List Bool × List PinOp :=
match take_outcome env with
| (true, env') =>
  (Except.ok { m with enable_line := true, is_enabled := false }, env', [PinOp.enable_write true])
| (false, env') => (Except.error MotorError.Enable, env', [])

/-- `StepperMotor::write_mode`: write the three mode-select lines in
order m1, m2, m3, aborting on the first failed write. -/
def StepperMotor.write_mode (m : StepperMotor) (m1_state m2_state m3_state : Bool)
    (env : List Bool) : Except MotorError StepperMotor × List Bool × List PinOp :=
match take_outcome env with
| (false, env1) => (Except.error MotorError.M1, env1, [])
| (true, env1) =>
  let m := { m with m1 := m1_state }
  match take_outcome env1 with
  | (false, env2) => (Except.error MotorError.M2, env2, [PinOp.m1_write m1_state])
  | (true, env2) =>
    let m := { m with m2 := m2_state }
    match take_outcome env2 with
    | (false, env3) =>
      (Except.error MotorError.M3, env3, [PinOp.m1_write m1_state, PinOp.m2_write m2_state])
    | (true, env3) =>
      (Except.ok { m with m3 := m3_state }, env3,
        [PinOp.m1_write m1_state, PinOp.m2_write m2_state, PinOp.m3_write m3_state])

/-- `StepperMotor::set_mode` of the main variant (`src/stepper_motor.rs`):
the static lookup table from microstep mode to mode-select line levels. -/
def StepperMotor.set_mode (m : StepperMotor) (mode : Mode) (env : List Bool) :
    Except MotorError StepperMotor × List Bool × List PinOp :=
match mode with
| Mode.FullStep => m.write_mode false false false env
| Mode.HalfStep => m.write_mode true false false env
| Mode.QuarterStep => m.write_mode false true false env
| Mode.EighthStep => m.write_mode true true true env
| Mode.SixteenthStep => m.write_mode true true true env

/-- The pulse loop inside `StepperMotor::rotate`: for each step, raise the
step line, hold, lower it, hold.  The `signal_delay` busy-waits have no
state effect and are not modelled. -/
def StepperMotor.rotate_pulses :
    StepperMotor → Nat → List Bool → Except MotorError StepperMotor × List Bool × List PinOp
| m, 0, env => (Except.ok m, env, [])
| m, n + 1, env =>
  match take_outcome env with
  | (false, env1) => (Except.error MotorError.Step, env1, [])
  | (true, env1) =>
    let m := { m with step_line := true }
    match take_outcome env1 with
    | (false, env2) => (Except.error MotorError.Step, env2, [PinOp.step_write true])
    | (true, env2) =>
      let m := { m with step_line := false }
      match StepperMotor.rotate_pulses m n env2 with
      | (r, env3, ops) => (r, env3, PinOp.step_write true :: PinOp.step_write false :: ops)

/-- `StepperMotor::rotate`: remember whether the driver was enabled on
entry; if not, enable it, emit the pulse train, and disable it again. -/
def StepperMotor.rotate (m : StepperMotor) (steps : Nat) (env : List Bool) :
    Except MotorError StepperMotor × List Bool × List PinOp :=
if m.is_enabled then
  m.rotate_pulses steps env
else
  match m.enable env with
  | (Except.error e, env1, ops1) => (Except.error e, env1, ops1)
  | (Except.ok m1, env1, ops1) =>
    match m1.rotate_pulses steps env1 with
    | (Except.error e, env2, ops2) => (Except.error e, env2, ops1 ++ ops2)
    | (Except.ok m2, env2, ops2) =>
      match m2.disable env2 with
      | (Except.error e, env3, ops3) => (Except.error e, env3, ops1 ++ ops2 ++ ops3)
      | (Except.ok m3, env3, ops3) => (Except.ok m3, env3, ops1 ++ ops2 ++ ops3)

/-- The pin-operation trace of a successful pulse train of `steps` steps. -/
def pulse_ops (steps : Nat) : List PinOp :=
(List.replicate steps [PinOp.step_write true, PinOp.step_write false]).flatten

/-- `screen::Frame`: the frame handed to `Screen::update`. -/
inductive Frame
| Height (mm : Nat)
| Calibrating
deriving DecidableEq, Repr

/-- A motor command issued by the controller: `StepperMotor::rotate_clockwise`
or `StepperMotor::rotate_counter_clockwise` with the given step count. -/
inductive MotorCmd
| rotate_clockwise (steps : Nat)
| rotate_counter_clockwise (steps : Nat)
deriving DecidableEq, Repr

/-- `Error` of the crate root (`src/lib.rs`). -/
inductive MillError
| Encoder (e : EncoderError)
| LimitSwitch
| Motor (e : MotorError)
| ScreenUpdate
| Sia
deriving DecidableEq, Repr

/-- The height-controller state of `Mill` (`src/lib.rs`): the two height
fields together with the construction-time configuration fields. -/
structure MillState where
target_height : Nat
current_height : Option Nat
motor_steps_per_tick : Nat
motor_steps_per_mm : Nat
max_height : Nat
deriving DecidableEq, Repr

/-- Peripheral outcomes for one `Mill::tick` call: whether the (at most
one) motor rotate call fails, the result of `limit_switch.is_low()`, and
whether the (at most one) screen update succeeds. -/
structure TickEnv where
motor_fault : Option MotorError
limit_low : Except Unit Bool
screen_ok : Bool

/-- `Mill::update_screen`: with a calibrated controller the frame shown is
`Frame::Height(target_height / motor_steps_per_mm)`; otherwise the
`Calibrating` frame.  Returns the propagated result together with the
frame that was handed to `Screen::update`. -/
def update_screen (s : MillState) (screen_ok : Bool) : Except MillError Unit × List Frame :=
match s.current_height with
| some _ =>
  let f := Frame.Height (s.target_height / s.motor_steps_per_mm)
  (if screen_ok then Except.ok () else Except.error MillError.ScreenUpdate, [f])
| none =>
  (if screen_ok then Except.ok () else Except.error MillError.ScreenUpdate, [Frame.Calibrating])

/-- `Mill::tick`.  Returns the propagated result, the new controller
state, the motor commands issued, and the frames handed to the screen.
`checked_sub(..).unwrap_or(0)` is truncated `Nat` subtraction; the
unchecked `u32` addition in the upward-tracking branch wraps mod `U32`. -/
def tick (s : MillState) (env : TickEnv) :
    Except MillError Unit × MillState × List MotorCmd × List Frame :=
match s.current_height with
| some current_height =>
  if current_height > s.target_height then
    match env.motor_fault with
    | some e =>
      (Except.error (MillError.Motor e), s,
        [MotorCmd.rotate_counter_clockwise s.motor_steps_per_tick], [])
    | none =>
      (Except.ok (), { s with current_height := some (current_height - s.motor_steps_per_tick) },
        [MotorCmd.rotate_counter_clockwise s.motor_steps_per_tick], [])
  else if current_height < s.target_height then
    match env.motor_fault with
    | some e =>
      (Except.error (MillError.Motor e), s,
        [MotorCmd.rotate_clockwise s.motor_steps_per_tick], [])
    | none =>
      (Except.ok (),
        { s with current_height := some ((current_height + s.motor_steps_per_tick) % U32) },
        [MotorCmd.rotate_clockwise s.motor_steps_per_tick], [])
  else
    (Except.ok (), s, [], [])
| none =>
  match env.motor_fault with
  | some e =>
    (Except.error (MillError.Motor e), s,
      [MotorCmd.rotate_counter_clockwise s.motor_steps_per_tick], [])
  | none =>
    match env.limit_low with
    | Except.error _ =>
      (Except.error MillError.LimitSwitch, s,
        [MotorCmd.rotate_counter_clockwise s.motor_steps_per_tick], [])
    | Except.ok true =>
      let s' := { s with current_height := some 0 }
      let r := update_screen s' env.screen_ok
      (r.1, s', [MotorCmd.rotate_counter_clockwise s.motor_steps_per_tick], r.2)
    | Except.ok false =>
      (Except.ok (), s, [MotorCmd.rotate_counter_clockwise s.motor_steps_per_tick], [])

/-- `Mill::handle_sia_interrupt`, as a function of the decoded result of
`encoder.update()`.  On a clockwise detent the `u32` addition is
unchecked (wraps mod `U32` in release builds) and the result is then
clamped to `max_height`; on a counter-clockwise detent the subtraction
saturates at 0.  Returns result, new state, and frames shown. -/
def handle_sia_interrupt (s : MillState) (rot : Except EncoderError Rotation)
    (screen_ok : Bool) : Except MillError Unit × MillState × List Frame :=
match rot with
| Except.error e => (Except.error (MillError.Encoder e), s, [])
| Except.ok r =>
  let s' :=
    match r with
    | Rotation.Clockwise =>
      let t := (s.target_height + s.motor_steps_per_mm) % U32
      { s with target_height := if t > s.max_height then s.max_height else t }
    | Rotation.CounterClockwise =>
      { s with target_height := s.target_height - s.motor_steps_per_mm }
    | Rotation.None => s
  let r' := update_screen s' screen_ok
  (r'.1, s', r'.2)

/-- `Mill::handle_home_switch_interrupt`: unconditionally clear
`current_height` and refresh the display. -/
def handle_home_switch_interrupt (s : MillState) (screen_ok : Bool) :
    Except MillError Unit × MillState × List Frame :=
let s' := { s with current_height := none }
let r := update_screen s' screen_ok
(r.1, s', r.2)

/-- `Mill::handle_limit_switch_interrupt`: set `current_height` to
`Some(0)` and `target_height` to 0, then refresh the display. -/
def handle_limit_switch_interrupt (s : MillState) (screen_ok : Bool) :
    Except MillError Unit × MillState × List Frame :=
let s' := { s with current_height := some 0, target_height := 0 }
let r := update_screen s' screen_ok
(r.1, s', r.2)

/-- Run a sequence of decoded encoder detents through
`handle_sia_interrupt`, keeping the controller state. -/
def run_sia_events (s : MillState) (evs : List Rotation) : MillState :=
evs.foldl (fun s r => (handle_sia_interrupt s (Except.ok r) true).2.1) s

/-- The all-success peripheral environment for `tick`. -/
def env_ok : TickEnv :=
{ motor_fault := none, limit_low := Except.ok false, screen_ok := true }

/-- The controller state after one `tick` call. -/
def tick_state (s : MillState) (env : TickEnv) : MillState := (tick s env).2.1

/-- Iterate fault-free `tick` calls. -/
def iterate_tick : Nat → MillState → MillState
| 0, s => s
| n + 1, s => iterate_tick n (tick_state s env_ok)

/-- Little-endian decimal digits computed with explicit structural fuel,
so that concrete instances reduce in the kernel. -/
def digits_fuel : Nat → Nat → List Nat
| 0, _ => []
| fuel + 1, n => if n = 0 then [] else n % 10 :: digits_fuel fuel (n / 10)

/-- Little-endian decimal digits of `n` (`n` itself is always enough fuel). -/
def dec_digits (n : Nat) : List Nat := digits_fuel n n

/-- The decimal rendering of `n`, as the character list Rust's `Display`
for `u32` produces. -/
def decimal_chars (n : Nat) : List Char :=
if n = 0 then ['0'] else (dec_digits n).reverse.map fun d => Char.ofNat (48 + d)

/-- Zero-pad to the minimum field width 2 of the `02`-format used in
`screen::height_to_string`. -/
def pad2 (s : List Char) : List Char :=
if s.length < 2 then List.replicate (2 - s.length) '0' ++ s else s

/-- `screen::height_to_string`: format the height into an
`ArrayString<[u8; 5]>` (capacity five bytes) as the zero-padded decimal
value followed by a unit suffix; a content that exceeds the capacity
makes the formatting write fail with `fmt::Error`. -/
def height_to_string (h : Nat) : Except Unit (List Char) :=
let content := pad2 (decimal_chars h) ++ ['m', 'm']
if content.length ≤ 5 then Except.ok content else Except.error ()

/-! ## Helper lemmas -/

/-- A successful `StepperMotor::enable` sets `is_enabled`, drives the
enable line low, and issues exactly that pin write. -/
lemma enable_ok (m m' : StepperMotor) (env env' : List Bool) (ops : List PinOp)
    (h : m.enable env = (Except.ok m', env', ops)) :
    m' = { m with enable_line := false, is_enabled := true } ∧
    ops = [PinOp.enable_write false] := by
cases env with
| nil => simp [StepperMotor.enable, take_outcome] at h; exact ⟨h.1.symm, h.2.2.symm⟩
| cons b rest =>
  cases b <;> simp [StepperMotor.enable, take_outcome] at h
  exact ⟨h.1.symm, h.2.2.symm⟩

/-- A successful `StepperMotor::disable` clears `is_enabled`, drives the
enable line high, and issues exactly that pin write. -/
lemma disable_ok (m m' : StepperMotor) (env env' : List Bool) (ops : List PinOp)
    (h : m.disable env = (Except.ok m', env', ops)) :
    m' = { m with enable_line := true, is_enabled := false } ∧
    ops = [PinOp.enable_write true] := by
cases env with
| nil => simp [StepperMotor.disable, take_outcome] at h; exact ⟨h.1.symm, h.2.2.symm⟩
| cons b rest =>
  cases b <;> simp [StepperMotor.disable, take_outcome] at h
  exact ⟨h.1.symm, h.2.2.symm⟩

/-- A successful pulse loop leaves the enable bookkeeping and the enable
line untouched and emits exactly the pulse trace. -/
lemma rotate_pulses_ok (steps : Nat) : ∀ (m m' : StepperMotor) (env env' : List Bool)
    (ops : List PinOp), m.rotate_pulses steps env = (Except.ok m', env', ops) →
    m'.is_enabled = m.is_enabled ∧ m'.enable_line = m.enable_line ∧ ops = pulse_ops steps := by
induction steps with
| zero =>
  intro m m' env env' ops h
  simp [StepperMotor.rotate_pulses] at h
  simp [pulse_ops, ← h.1, h.2.2]
| succ n ih =>
  intro m m' env env' ops h
  simp only [StepperMotor.rotate_pulses] at h
  rcases hto : take_outcome env with ⟨b1, env1⟩
  rw [hto] at h
  cases b1
  · simp at h
  · dsimp only at h
    rcases hto2 : take_outcome env1 with ⟨b2, env2⟩
    rw [hto2] at h
    cases b2
    · simp at h
    · dsimp only at h
      rcases hrec : StepperMotor.rotate_pulses { m with step_line := false } n env2
        with ⟨r3, env3, ops3⟩
      rw [hrec] at h
      cases r3 with
      | error e => simp at h
      | ok m3 =>
        simp at h
        obtain ⟨he, hops⟩ := ih _ _ _ _ _ hrec
        refine ⟨?_, ?_, ?_⟩
        · rw [← h.1, he]
        · rw [← h.1, hops.1]
        · rw [← h.2.2, hops.2]
          simp [pulse_ops, List.replicate_succ]

/-! ## Claim theorems -/

/-- C6: enable-state restoration in `StepperMotor::rotate`.  For every
step count and write-outcome oracle, a successful `rotate` leaves the
`is_enabled` flag exactly as it was on entry; if the driver was enabled on
entry the call emits only the pulse train, and if it was disabled the
enable line is driven low before the first pulse and high again after the
last one. -/
theorem rotate_restores_enable_state (m m' : StepperMotor) (steps : Nat)
    (env env' : List Bool) (ops : List PinOp)
    (h : m.rotate steps env = (Except.ok m', env', ops)) :
    m'.is_enabled = m.is_enabled ∧
    ops = (if m.is_enabled then pulse_ops steps
      else PinOp.enable_write false :: (pulse_ops steps ++ [PinOp.enable_write true])) := by
by_cases he : m.is_enabled
· rw [StepperMotor.rotate, if_pos he] at h
  obtain ⟨h1, _, h3⟩ := rotate_pulses_ok steps m m' env env' ops h
  rw [if_pos he]
  exact ⟨by rw [h1], h3⟩
· rw [StepperMotor.rotate, if_neg he] at h
  rcases hen : m.enable env with ⟨r1, env1, ops1⟩
  rw [hen] at h
  cases r1 with
  | error e => simp at h
  | ok m1 =>
    dsimp only at h
    rcases hp : m1.rotate_pulses steps env1 with ⟨r2, env2, ops2⟩
    rw [hp] at h
    cases r2 with
    | error e => simp at h
    | ok m2 =>
      dsimp only at h
      rcases hd : m2.disable env2 with ⟨r3, env3, ops3⟩
      rw [hd] at h
      cases r3 with
      | error e => simp at h
      | ok m3 =>
        simp at h
        obtain ⟨hm1, hops1⟩ := enable_ok m m1 env env1 ops1 hen
        obtain ⟨_, _, hops2⟩ := rotate_pulses_ok steps m1 m2 env1 env2 ops2 hp
        obtain ⟨hm3, hops3⟩ := disable_ok m2 m3 env2 env3 ops3 hd
        constructor
        · rw [← h.1, hm3]
          simp [he]
        · rw [← h.2.2, hops1, hops2, hops3, if_neg he]
          simp

/-- Witness for C6 at a concrete disabled motor, one step, all writes
succeeding. -/
theorem rotate_restores_enable_state_witness :
    StepperMotor.rotate ⟨false, false, true, false, false, false, false⟩ 1 []
      = (Except.ok ⟨false, false, true, false, false, false, false⟩, [],
        [PinOp.enable_write false, PinOp.step_write true, PinOp.step_write false,
          PinOp.enable_write true]) ∧
    ((⟨false, false, true, false, false, false, false⟩ : StepperMotor).is_enabled
        = (⟨false, false, true, false, false, false, false⟩ : StepperMotor).is_enabled ∧
      [PinOp.enable_write false, PinOp.step_write true, PinOp.step_write false,
          PinOp.enable_write true]
        = (if (⟨false, false, true, false, false, false, false⟩ : StepperMotor).is_enabled
            then pulse_ops 1
            else PinOp.enable_write false :: (pulse_ops 1 ++ [PinOp.enable_write true]))) :=
⟨rfl, rotate_restores_enable_state _ _ 1 [] [] _ rfl⟩

/-- C10: in the main variant's microstep lookup table, `EighthStep` and
`SixteenthStep` map to the same mode-select line levels (m1, m2, m3 all
high), so `set_mode` behaves identically on them for every motor state and
write-outcome oracle. -/
theorem set_mode_eighth_eq_sixteenth (m : StepperMotor) (env : List Bool) :
    m.set_mode Mode.EighthStep env = m.set_mode Mode.SixteenthStep env ∧
    (m.set_mode Mode.EighthStep []).1
      = Except.ok { m with m1 := true, m2 := true, m3 := true } :=
⟨rfl, rfl⟩

/-- C4: a home-switch interrupt always clears `current_height` to `None`
and refreshes the display with the `Calibrating` frame, whatever the prior
controller state. -/
theorem home_switch_recalibrates (s : MillState) (screen_ok : Bool) :
    (handle_home_switch_interrupt s screen_ok).2.1.current_height = none ∧
    (handle_home_switch_interrupt s screen_ok).2.2 = [Frame.Calibrating] := by
constructor
· rfl
· simp [handle_home_switch_interrupt, update_screen]

/-- C9: while calibrated, every display refresh renders
`Frame::Height(target_height / motor_steps_per_mm)`; the frame does not
depend on the measured `current_height`.  The positivity hypothesis rules
out the zero-`steps_per_mm` configuration, where the source's `u32`
division would instead abort. -/
theorem display_shows_target (s : MillState) (c : Nat) (screen_ok : Bool)
    (hc : s.current_height = some c) (hspm : 0 < s.motor_steps_per_mm) :
    (update_screen s screen_ok).2
      = [Frame.Height (s.target_height / s.motor_steps_per_mm)] ∧
    ∀ c', (update_screen { s with current_height := some c' } screen_ok).2
      = (update_screen s screen_ok).2 := by
constructor
· simp [update_screen, hc]
· intro c'
  simp [update_screen, hc]

/-- Witness for C9 at a concrete calibrated state. -/
theorem display_shows_target_witness :
    (⟨600, some 42, 1, 200, 9000⟩ : MillState).current_height = some 42 ∧
    0 < (⟨600, some 42, 1, 200, 9000⟩ : MillState).motor_steps_per_mm ∧
    ((update_screen ⟨600, some 42, 1, 200, 9000⟩ true).2 = [Frame.Height 3] ∧
      ∀ c', (update_screen { (⟨600, some 42, 1, 200, 9000⟩ : MillState) with
          current_height := some c' } true).2
        = (update_screen ⟨600, some 42, 1, 200, 9000⟩ true).2) :=
⟨rfl, by decide, display_shows_target _ 42 true rfl (by decide)⟩

/-- Every `tick` call either leaves the controller state untouched or
returns success or a screen-update fault (the only mutation that can be
followed by a failure is the calibration finalization, whose screen
refresh comes after the height update). -/
lemma tick_cases (s : MillState) (env : TickEnv) :
    (tick s env).2.1 = s ∨ (tick s env).1 = Except.ok () ∨
      (tick s env).1 = Except.error MillError.ScreenUpdate := by
cases hc : s.current_height with
| none =>
  cases hm : env.motor_fault with
  | some f => left; simp [tick, hc, hm]
  | none =>
    cases hl : env.limit_low with
    | error u => left; simp [tick, hc, hm, hl]
    | ok b =>
      cases b with
      | false => left; simp [tick, hc, hm, hl]
      | true =>
        cases hso : env.screen_ok with
        | true => right; left; simp [tick, update_screen, hc, hm, hl, hso]
        | false => right; right; simp [tick, update_screen, hc, hm, hl, hso]
| some c =>
  by_cases h1 : c > s.target_height
  · cases hm : env.motor_fault with
    | some f => left; simp [tick, hc, hm, h1]
    | none => right; left; simp [tick, hc, hm, h1]
  · by_cases h2 : c < s.target_height
    · cases hm : env.motor_fault with
      | some f => left; simp [tick, hc, hm, h1, h2]
      | none => right; left; simp [tick, hc, hm, h1, h2]
    · right; left; simp [tick, hc, h1, h2]

/-- C8: atomicity of `tick` on motor and limit-switch faults.  Whenever
`tick` reports `Error::Motor` or `Error::LimitSwitch`, both height fields
hold exactly the values they held before the call. -/
theorem tick_fault_atomicity (s : MillState) (env : TickEnv) (e : MillError)
    (herr : (tick s env).1 = Except.error e)
    (hkind : (∃ f, e = MillError.Motor f) ∨ e = MillError.LimitSwitch) :
    (tick s env).2.1.target_height = s.target_height ∧
    (tick s env).2.1.current_height = s.current_height := by
rcases tick_cases s env with hst | hok | hscr
· rw [hst]; exact ⟨rfl, rfl⟩
· rw [hok] at herr; exact absurd herr (by simp)
· rw [hscr] at herr
  rcases hkind with ⟨f, rfl⟩ | rfl <;> simp at herr

/-- Witness for C8: a motor fault in the upward-tracking branch leaves
both heights unchanged. -/
theorem tick_fault_atomicity_witness :
    (tick ⟨600, some 0, 1, 200, 9000⟩
        ⟨some MotorError.Step, Except.ok false, true⟩).1
      = Except.error (MillError.Motor MotorError.Step) ∧
    ((∃ f, MillError.Motor MotorError.Step = MillError.Motor f) ∨
      MillError.Motor MotorError.Step = MillError.LimitSwitch) ∧
    ((tick ⟨600, some 0, 1, 200, 9000⟩
        ⟨some MotorError.Step, Except.ok false, true⟩).2.1.target_height = 600 ∧
      (tick ⟨600, some 0, 1, 200, 9000⟩
        ⟨some MotorError.Step, Except.ok false, true⟩).2.1.current_height = some 0) :=
⟨rfl, Or.inl ⟨MotorError.Step, rfl⟩,
  tick_fault_atomicity _ _ _ rfl (Or.inl ⟨MotorError.Step, rfl⟩)⟩

/-- C3: calibration inside `tick`.  While uncalibrated (and with a
fault-free motor), each `tick` issues exactly one counter-clockwise homing
jog of `motor_steps_per_tick` steps; `current_height` becomes `Some(0)`
precisely when the home/limit sensor then reads triggered (low), in which
case the display is refreshed; otherwise the controller state is
unchanged.  The positivity hypothesis rules out the zero-`steps_per_mm`
configuration, where the display refresh would divide by zero. -/
theorem tick_calibration (s : MillState) (env : TickEnv)
    (hu : s.current_height = none) (hm : env.motor_fault = none)
    (hspm : 0 < s.motor_steps_per_mm) :
    (tick s env).2.2.1 = [MotorCmd.rotate_counter_clockwise s.motor_steps_per_tick] ∧
    ((tick s env).2.1.current_height = some 0 ↔ env.limit_low = Except.ok true) ∧
    (env.limit_low = Except.ok true →
      (tick s env).2.2.2 = [Frame.Height (s.target_height / s.motor_steps_per_mm)]) ∧
    (env.limit_low ≠ Except.ok true → (tick s env).2.1 = s) := by
cases hl : env.limit_low with
| error u => simp [tick, hu, hm, hl]
| ok b => cases b <;> simp [tick, update_screen, hu, hm, hl]

/-- Witness for C3: an uncalibrated controller with the sensor triggered
calibrates to `Some(0)` and refreshes the display. -/
theorem tick_calibration_witness :
    (⟨600, none, 1, 200, 9000⟩ : MillState).current_height = none ∧
    (⟨none, Except.ok true, true⟩ : TickEnv).motor_fault = none ∧
    0 < (⟨600, none, 1, 200, 9000⟩ : MillState).motor_steps_per_mm ∧
    ((tick ⟨600, none, 1, 200, 9000⟩ ⟨none, Except.ok true, true⟩).2.2.1
        = [MotorCmd.rotate_counter_clockwise 1] ∧
      ((tick ⟨600, none, 1, 200, 9000⟩ ⟨none, Except.ok true, true⟩).2.1.current_height
          = some 0 ↔ (⟨none, Except.ok true, true⟩ : TickEnv).limit_low = Except.ok true) ∧
      ((⟨none, Except.ok true, true⟩ : TickEnv).limit_low = Except.ok true →
        (tick ⟨600, none, 1, 200, 9000⟩ ⟨none, Except.ok true, true⟩).2.2.2
          = [Frame.Height 3]) ∧
      ((⟨none, Except.ok true, true⟩ : TickEnv).limit_low ≠ Except.ok true →
        (tick ⟨600, none, 1, 200, 9000⟩ ⟨none, Except.ok true, true⟩).2.1
          = ⟨600, none, 1, 200, 9000⟩)) :=
⟨rfl, rfl, by decide, tick_calibration _ _ rfl rfl (by decide)⟩

/-- `tick` never changes `target_height` or any configuration field. -/
lemma tick_preserves_config (s : MillState) (env : TickEnv) :
    (tick_state s env).target_height = s.target_height ∧
    (tick_state s env).motor_steps_per_tick = s.motor_steps_per_tick ∧
    (tick_state s env).motor_steps_per_mm = s.motor_steps_per_mm ∧
    (tick_state s env).max_height = s.max_height := by
cases hc : s.current_height with
| none =>
  cases hm : env.motor_fault with
  | some f => simp [tick_state, tick, hc, hm]
  | none =>
    cases hl : env.limit_low with
    | error u => simp [tick_state, tick, hc, hm, hl]
    | ok b => cases b <;> simp [tick_state, tick, update_screen, hc, hm, hl]
| some c =>
  by_cases h1 : c > s.target_height
  · cases hm : env.motor_fault with
    | some f => simp [tick_state, tick, hc, hm, h1]
    | none => simp [tick_state, tick, hc, hm, h1]
  · by_cases h2 : c < s.target_height
    · cases hm : env.motor_fault with
      | some f => simp [tick_state, tick, hc, hm, h1, h2]
      | none => simp [tick_state, tick, hc, hm, h1, h2]
    · simp [tick_state, tick, hc, h1, h2]

/-- One encoder event preserves the configuration fields of the state. -/
lemma sia_preserves_config (s : MillState) (r : Rotation) (screen_ok : Bool) :
    (handle_sia_interrupt s (Except.ok r) screen_ok).2.1.max_height = s.max_height ∧
    (handle_sia_interrupt s (Except.ok r) screen_ok).2.1.motor_steps_per_mm
      = s.motor_steps_per_mm := by
cases r <;> simp [handle_sia_interrupt]

/-- One encoder event keeps `target_height` at or below `max_height`. -/
lemma sia_preserves_inv (s : MillState) (r : Rotation) (screen_ok : Bool)
    (h : s.target_height ≤ s.max_height) :
    (handle_sia_interrupt s (Except.ok r) screen_ok).2.1.target_height ≤ s.max_height := by
cases r with
| None => simpa [handle_sia_interrupt] using h
| Clockwise =>
  simp only [handle_sia_interrupt]
  split <;> omega
| CounterClockwise =>
  simp only [handle_sia_interrupt]
  omega

/-- The `target_height ≤ max_height` invariant survives any sequence of
decoded encoder events, and `max_height` never changes along the way. -/
lemma run_sia_inv (evs : List Rotation) : ∀ s : MillState,
    s.target_height ≤ s.max_height →
    (run_sia_events s evs).max_height = s.max_height ∧
    (run_sia_events s evs).target_height ≤ s.max_height := by
induction evs with
| nil => intro s h; exact ⟨rfl, h⟩
| cons r rest ih =>
  intro s h
  have hstep : run_sia_events s (r :: rest)
      = run_sia_events (handle_sia_interrupt s (Except.ok r) true).2.1 rest := rfl
  set s1 := (handle_sia_interrupt s (Except.ok r) true).2.1 with hs1
  have hcfg := sia_preserves_config s r true
  have hinv1 : s1.target_height ≤ s1.max_height := by
    rw [← hs1] at hcfg
    rw [hcfg.1]
    exact sia_preserves_inv s r true h
  obtain ⟨h1, h2⟩ := ih s1 hinv1
  rw [hstep]
  rw [← hs1] at hcfg
  exact ⟨by rw [h1, hcfg.1], le_trans h2 (le_of_eq hcfg.1)⟩

/-- C1 (amended): starting from any in-range state, `target_height` stays
in `[0, max_height]` over every sequence of decoded encoder events,
unconditionally — even for configurations where the unchecked `u32`
addition can wrap.  A counter-clockwise event always lowers it by
`motor_steps_per_mm` saturating at 0; and provided the configuration
cannot overflow `u32` (`max_height + motor_steps_per_mm < 2 ^ 32`), a
clockwise event raises it by `motor_steps_per_mm` clamped to `max_height`
without wrapping.  (Without that side condition the clockwise addition
wraps; see the counterexample.) -/
theorem sia_target_in_range (s : MillState) (evs : List Rotation) (screen_ok : Bool)
    (hinv : s.target_height ≤ s.max_height) :
    (run_sia_events s evs).target_height ≤ s.max_height ∧
    (s.max_height + s.motor_steps_per_mm < U32 →
      (handle_sia_interrupt s (Except.ok Rotation.Clockwise) screen_ok).2.1.target_height
        = min (s.target_height + s.motor_steps_per_mm) s.max_height) ∧
    (handle_sia_interrupt s (Except.ok Rotation.CounterClockwise) screen_ok).2.1.target_height
      = s.target_height - s.motor_steps_per_mm := by
refine ⟨(run_sia_inv evs s hinv).2, ?_, ?_⟩
· intro hcfg
  simp only [handle_sia_interrupt]
  rw [Nat.mod_eq_of_lt (by omega)]
  split <;> omega
· simp [handle_sia_interrupt]

/-- Witness for C1 at the spec's worked example: `steps_per_mm = 200`,
`max_height = 9000`, three clockwise detents from a fresh controller. -/
theorem sia_target_in_range_witness :
    (⟨0, none, 1, 200, 9000⟩ : MillState).target_height
        ≤ (⟨0, none, 1, 200, 9000⟩ : MillState).max_height ∧
    ((run_sia_events ⟨0, none, 1, 200, 9000⟩
        [Rotation.Clockwise, Rotation.Clockwise, Rotation.Clockwise]).target_height ≤ 9000 ∧
      ((⟨0, none, 1, 200, 9000⟩ : MillState).max_height
          + (⟨0, none, 1, 200, 9000⟩ : MillState).motor_steps_per_mm < U32 →
        (handle_sia_interrupt ⟨0, none, 1, 200, 9000⟩
          (Except.ok Rotation.Clockwise) true).2.1.target_height = min (0 + 200) 9000) ∧
      (handle_sia_interrupt ⟨0, none, 1, 200, 9000⟩
          (Except.ok Rotation.CounterClockwise) true).2.1.target_height = 0 - 200) :=
⟨by decide, sia_target_in_range _ _ true (by decide)⟩

/-- C1 counterexample: with `steps_per_mm = 2 ^ 31` and
`max_height = 2 ^ 32 - 1`, the second clockwise event wraps the unchecked
`u32` addition to 0 instead of clamping to `max_height`, so the claimed
clamped-increase description of a clockwise event is false in general. -/
theorem sia_wrap_counterexample :
    (run_sia_events ⟨0, none, 1, 2 ^ 31, 2 ^ 32 - 1⟩
        [Rotation.Clockwise, Rotation.Clockwise]).target_height = 0 ∧
    min (2 ^ 31 + 2 ^ 31) (2 ^ 32 - 1) = 2 ^ 32 - 1 ∧ (0 : Nat) ≠ 2 ^ 32 - 1 := by
refine ⟨?_, by norm_num, by norm_num⟩
decide

/-- C5 (amended): `target_height` is changed only by the encoder handler
(clockwise: unchecked add then clamp; counter-clockwise: saturating
subtract) or reset to 0 by the **limit**-switch interrupt.  The
home-switch interrupt clears `current_height` but leaves `target_height`
unchanged (it is not reset to 0 there; see the counterexample), and `tick`
and a failed encoder read never touch it. -/
theorem target_height_mutation_frame (s : MillState) (env : TickEnv)
    (screen_ok : Bool) (e : EncoderError) :
    (tick s env).2.1.target_height = s.target_height ∧
    (handle_home_switch_interrupt s screen_ok).2.1.target_height = s.target_height ∧
    (handle_limit_switch_interrupt s screen_ok).2.1.target_height = 0 ∧
    (handle_sia_interrupt s (Except.error e) screen_ok).2.1.target_height
      = s.target_height ∧
    (handle_sia_interrupt s (Except.ok Rotation.None) screen_ok).2.1.target_height
      = s.target_height ∧
    (handle_sia_interrupt s (Except.ok Rotation.Clockwise) screen_ok).2.1.target_height
      = (if (s.target_height + s.motor_steps_per_mm) % U32 > s.max_height
        then s.max_height else (s.target_height + s.motor_steps_per_mm) % U32) ∧
    (handle_sia_interrupt s (Except.ok Rotation.CounterClockwise) screen_ok).2.1.target_height
      = s.target_height - s.motor_steps_per_mm := by
refine ⟨(tick_preserves_config s env).1, ?_, ?_, ?_, ?_, ?_, ?_⟩ <;>
  simp [handle_home_switch_interrupt, handle_limit_switch_interrupt, handle_sia_interrupt]

/-- C5 counterexample: after a home-switch interrupt `target_height` keeps
its prior value (600 here), contradicting the claim that recalibration via
the home switch resets it to 0. -/
theorem home_switch_keeps_target_counterexample :
    (handle_home_switch_interrupt ⟨600, some 300, 1, 200, 9000⟩ true).2.1.current_height
        = none ∧
    (handle_home_switch_interrupt ⟨600, some 300, 1, 200, 9000⟩ true).2.1.target_height
        = 600 ∧
    (600 : Nat) ≠ 0 :=
⟨rfl, rfl, by decide⟩

/-- One fault-free tracking tick with at least `motor_steps_per_tick`
distance remaining moves `current_height` exactly `motor_steps_per_tick`
steps toward the target. -/
lemma tick_progress (s : MillState) (c : Nat)
    (hc : s.current_height = some c) (hne : c ≠ s.target_height)
    (hge : s.motor_steps_per_tick ≤ Nat.dist c s.target_height)
    (ht : s.target_height < U32) (hcU : c < U32) :
    ∃ c', (tick_state s env_ok).current_height = some c' ∧
      Nat.dist c' s.target_height + s.motor_steps_per_tick = Nat.dist c s.target_height ∧
      c' < U32 := by
simp only [Nat.dist] at hge ⊢
rcases Nat.lt_or_ge c s.target_height with hlt | hge'
· have hnotgt : ¬ c > s.target_height := by omega
  have hle : c + s.motor_steps_per_tick ≤ s.target_height := by omega
  refine ⟨c + s.motor_steps_per_tick, ?_, by omega, by omega⟩
  simp [tick_state, tick, env_ok, hc, hnotgt, hlt,
    Nat.mod_eq_of_lt (by omega : c + s.motor_steps_per_tick < U32)]
· have hgt : c > s.target_height := by omega
  refine ⟨c - s.motor_steps_per_tick, ?_, by omega, by omega⟩
  simp [tick_state, tick, env_ok, hc, hgt]

/-- Fault-free ticks close a distance of exactly `k` per-tick quanta in
exactly `k` ticks. -/
lemma tick_convergence_aux (k : Nat) : ∀ (s : MillState) (c : Nat),
    s.current_height = some c →
    Nat.dist c s.target_height = k * s.motor_steps_per_tick →
    0 < s.motor_steps_per_tick → s.target_height < U32 → c < U32 →
    (iterate_tick k s).current_height = some s.target_height := by
induction k with
| zero =>
  intro s c hc hd _ _ _
  have hceq : c = s.target_height := by simp [Nat.dist] at hd; omega
  rw [iterate_tick, hc, hceq]
| succ k ih =>
  intro s c hc hd hspt ht hcU
  have hne : c ≠ s.target_height := by
    intro hceq
    rw [hceq] at hd
    simp [Nat.dist] at hd
    omega
  have hge : s.motor_steps_per_tick ≤ Nat.dist c s.target_height := by
    rw [hd]
    exact Nat.le_mul_of_pos_left _ (Nat.succ_pos k)
  obtain ⟨c', hc', hdist, hcU'⟩ := tick_progress s c hc hne hge ht hcU
  obtain ⟨htar, hspt', _, _⟩ := tick_preserves_config s env_ok
  rw [iterate_tick]
  have hd' : Nat.dist c' (tick_state s env_ok).target_height
      = k * (tick_state s env_ok).motor_steps_per_tick := by
    rw [htar, hspt']
    have hmul : (k + 1) * s.motor_steps_per_tick
        = k * s.motor_steps_per_tick + s.motor_steps_per_tick := by ring
    omega
  have := ih (tick_state s env_ok) c' hc' hd'
    (by rw [hspt']; exact hspt) (by rw [htar]; exact ht) hcU'
  rw [this, htar]

/-- C2 (amended): tracking convergence holds when `motor_steps_per_tick`
divides the distance `|c − t|` (in particular always when
`steps_per_tick = 1`): each fault-free tick then moves `current_height`
exactly `motor_steps_per_tick` steps strictly toward the target, and
`|c − t| / motor_steps_per_tick` ticks (which under divisibility equals
the claim's ceiling) reach `current_height = Some(t)` exactly.  When the
distance is not a multiple of `motor_steps_per_tick` the unclamped
reference code overshoots and oscillates, so the claim as stated fails
(see the counterexample).  The `U32` bounds state that the `u32` fields
are in range. -/
theorem tick_tracking_convergence (s : MillState) (c : Nat)
    (hc : s.current_height = some c) (hspt : 0 < s.motor_steps_per_tick)
    (hdvd : s.motor_steps_per_tick ∣ Nat.dist c s.target_height)
    (ht : s.target_height < U32) (hcU : c < U32) :
    (c ≠ s.target_height →
      ∃ c', (tick_state s env_ok).current_height = some c' ∧
        Nat.dist c' s.target_height + s.motor_steps_per_tick
          = Nat.dist c s.target_height) ∧
    (iterate_tick (Nat.dist c s.target_height / s.motor_steps_per_tick) s).current_height
      = some s.target_height := by
obtain ⟨k, hk⟩ := hdvd
constructor
· intro hne
  have hge : s.motor_steps_per_tick ≤ Nat.dist c s.target_height :=
    Nat.le_of_dvd (Nat.dist_pos_of_ne hne) ⟨k, hk⟩
  obtain ⟨c', h1, h2, _⟩ := tick_progress s c hc hne hge ht hcU
  exact ⟨c', h1, h2⟩
· rw [hk, Nat.mul_div_cancel_left k hspt]
  exact tick_convergence_aux k s c hc (by rw [hk]; ring) hspt ht hcU

/-- Witness for C2 at the spec's worked example: target 600 steps,
`steps_per_tick = 1`, homed at 0; 600 ticks reach the target exactly. -/
theorem tick_tracking_convergence_witness :
    (⟨600, some 0, 1, 200, 9000⟩ : MillState).current_height = some 0 ∧
    0 < (⟨600, some 0, 1, 200, 9000⟩ : MillState).motor_steps_per_tick ∧
    (⟨600, some 0, 1, 200, 9000⟩ : MillState).motor_steps_per_tick
        ∣ Nat.dist 0 (⟨600, some 0, 1, 200, 9000⟩ : MillState).target_height ∧
    (⟨600, some 0, 1, 200, 9000⟩ : MillState).target_height < U32 ∧
    (0 : Nat) < U32 ∧
    ((0 ≠ (⟨600, some 0, 1, 200, 9000⟩ : MillState).target_height →
      ∃ c', (tick_state ⟨600, some 0, 1, 200, 9000⟩ env_ok).current_height = some c' ∧
        Nat.dist c' (⟨600, some 0, 1, 200, 9000⟩ : MillState).target_height + 1
          = Nat.dist 0 (⟨600, some 0, 1, 200, 9000⟩ : MillState).target_height) ∧
      (iterate_tick 600 ⟨600, some 0, 1, 200, 9000⟩).current_height = some 600) :=
⟨rfl, by decide, ⟨600, by decide⟩, by decide, by decide,
  tick_tracking_convergence _ 0 rfl (by decide) ⟨600, by decide⟩ (by decide) (by decide)⟩

/-- C2 counterexample: with `steps_per_tick = 3`, `current = Some(0)` and
`target = 5`, the claim's tick count is 2 (the ceiling of 5 / 3), but two
fault-free ticks land on `Some(6)`, not `Some(5)` — the unclamped step
overshoots the target. -/
theorem tick_ceiling_counterexample :
    (Nat.dist 0 5 + 3 - 1) / 3 = 2 ∧
    (iterate_tick 2 ⟨5, some 0, 3, 200, 9000⟩).current_height = some 6 ∧
    some 6 ≠ some ((⟨5, some 0, 3, 200, 9000⟩ : MillState).target_height) := by
refine ⟨by decide, by decide, by decide⟩

/-- With enough fuel, `digits_fuel` computes the little-endian decimal
digits. -/
lemma digits_fuel_eq (fuel : Nat) : ∀ n : Nat, n ≤ fuel →
    digits_fuel fuel n = Nat.digits 10 n := by
induction fuel with
| zero =>
  intro n hn
  have : n = 0 := Nat.le_zero.mp hn
  simp [this, digits_fuel]
| succ f ih =>
  intro n hn
  by_cases hz : n = 0
  · simp [hz, digits_fuel]
  · have hpos : 0 < n := Nat.pos_of_ne_zero hz
    have hdiv : n / 10 ≤ f := by
      have : n / 10 < n := Nat.div_lt_self hpos (by norm_num)
      omega
    simp only [digits_fuel, if_neg hz]
    rw [ih (n / 10) hdiv, Nat.digits_def' (by norm_num : (1 : Nat) < 10) hpos]

/-- `dec_digits` agrees with `Nat.digits 10`. -/
lemma dec_digits_eq (n : Nat) : dec_digits n = Nat.digits 10 n :=
digits_fuel_eq n n le_rfl

/-- A natural number has at most three decimal digits exactly when it is
below 1000. -/
lemma digits_len_le_three_iff (n : Nat) : (Nat.digits 10 n).length ≤ 3 ↔ n < 1000 := by
rcases eq_or_ne n 0 with rfl | hn
· simp
· rw [Nat.digits_len 10 n (by norm_num) hn]
  have h1000 : (1000 : Nat) = 10 ^ 3 := by norm_num
  rw [h1000, Nat.lt_pow_iff_log_lt (by norm_num) hn]
  omega

/-- Length of the decimal rendering. -/
lemma decimal_chars_length (n : Nat) :
    (decimal_chars n).length = if n = 0 then 1 else (Nat.digits 10 n).length := by
rcases eq_or_ne n 0 with rfl | hn
· simp [decimal_chars]
· simp [decimal_chars, hn, dec_digits_eq]

/-- Zero-padding to minimum width two yields length `max 2 len`. -/
lemma pad2_length (s : List Char) : (pad2 s).length = max 2 s.length := by
unfold pad2
split
· simp
  omega
· omega

/-- C7 (amended): the fixed five-byte display buffer holds the zero-padded
height plus the unit suffix exactly when the height needs at most three
decimal digits.  So formatting succeeds for every value below 1000 —
including the claim's whole range 100..999, not only values below 100 —
and yields the formatting error precisely for values of 1000 mm or more.
-/
theorem height_format_capacity (h : Nat) :
    (∃ out, height_to_string h = Except.ok out) ↔ h < 1000 := by
have hkey : (decimal_chars h).length ≤ 3 ↔ h < 1000 := by
  rw [decimal_chars_length h]
  rcases eq_or_ne h 0 with rfl | hn
  · simp
  · rw [if_neg hn]
    exact digits_len_le_three_iff h
simp only [height_to_string]
by_cases hle : (pad2 (decimal_chars h) ++ ['m', 'm']).length ≤ 5
· rw [if_pos hle]
  have hlt : h < 1000 := by
    rw [← hkey]
    have := hle
    rw [List.length_append, pad2_length] at this
    simp at this
    omega
  simp [hlt]
· rw [if_neg hle]
  have hge : ¬ h < 1000 := by
    rw [← hkey]
    intro hcon
    apply hle
    rw [List.length_append, pad2_length]
    simp
    omega
  simp [hge]

/-- C7 counterexample: a height of 100 mm — at the claimed two-digit
capacity limit — still formats successfully as the five bytes `100mm`,
contradicting the claim that every value of 100 or more yields a
formatting error. -/
theorem height_100_formats_ok :
    height_to_string 100 = Except.ok ['1', '0', '0', 'm', 'm'] := by
rfl

end MillFw
